import Mathlib

/-!
# prepare-after-update: program processing

A shallow embedding of the per-program processing code of `cmd/app/main.go`
(`processProgram`, `checkConfigExists`, `isProgramInstalled`, `installProgram`,
`executeCommand`, `runPostAction`, `detectPackageManager`, `commandExists` and
the loop of `processUserConfig`).

The operating system is an explicit parameter: a `World` gives the answers of
`os.Stat`, `exec.LookPath` and of running a process, over an abstract state
that only a spawned process can change.  Every function returns, next to its
Go result, the events it produced (log lines and spawned processes, in order)
and the state of the world it leaves behind.
-/

namespace PrepareAfterUpdate

/-! ## Data model -/

/-- The Go struct `Program`; `packages` is the `map[string]string`, read with `List.lookup`. -/
structure Program where
  name : String
  configPaths : List String
  checkCommand : String
  action : String
  packages : List (String × String)
  command : String
  postAction : List String
  deriving DecidableEq

/-- The three outcomes of `os.Stat` that the code tells apart: no error, an error for which
`os.IsNotExist` holds, and any other error (permission denied, not a directory, ...). -/
inductive StatResult where
  | ok
  | notExist
  | otherErr
  deriving DecidableEq

/-- The result of running a process to completion: `err = none` is Go's `err == nil`
(started and exited with status 0), `output` is the combined stdout and stderr. -/
structure SpawnResult where
  err : Option String
  output : String
  deriving DecidableEq

/-- The operating system as seen by the code, over a state `σ`. -/
structure World (σ : Type) where
  /-- The library function `filepath.Join` on two elements. -/
  join : String → String → String
  /-- The library function `os.Stat`, by full path. -/
  stat : σ → String → StatResult
  /-- Whether `exec.LookPath` returns no error. -/
  lookPath : σ → String → Bool
  /-- Running `exec.Command(argv[0], argv[1:]...)` to completion. -/
  spawn : σ → List String → SpawnResult × σ

/-- The errors built with `fmt.Errorf` in the processing code. -/
inductive Err where
  /-- The text "не найден поддерживаемый менеджер пакетов". -/
  | noPackageManager
  /-- The format "пакеты для %s не определены". -/
  | packagesUndefined (pm : String)
  /-- The format "ошибка установки: %v". -/
  | installFailed (cause : String)
  /-- The text "пустая команда". -/
  | emptyCommand
  /-- The format "ошибка выполнения: %v". -/
  | execFailed (cause : String)
  deriving DecidableEq

/-- The log lines of the processing code, one constructor per `logger.Printf` call. -/
inductive LogLine where
  /-- The format "Проверка программы: %s". -/
  | checking (name : String)
  /-- The format "%s уже установлен". -/
  | alreadyInstalled (name : String)
  /-- The format "Ошибка установки %s: %v". -/
  | installError (name : String) (e : Err)
  /-- The format "Конфигурация для %s не найдена, пропуск выполнения". -/
  | configNotFound (name : String)
  /-- The format "Не указана команда для выполнения %s". -/
  | noCommand (name : String)
  /-- The format "Ошибка выполнения команды для %s: %v". -/
  | commandError (name : String) (e : Err)
  /-- The format "Неизвестное действие для %s: %s". -/
  | unknownAction (name : String) (action : String)
  /-- The format "Установка с помощью %s: %s". -/
  | installing (pm : String) (pkgList : String)
  /-- The format "Вывод команды установки:\n%s". -/
  | installOutput (output : String)
  /-- The format "Установка завершена успешно. Вывод:\n%s". -/
  | installDone (output : String)
  /-- The format "Выполнение команды: %s". -/
  | executing (cmd : String)
  /-- The format "Вывод команды:\n%s". -/
  | commandOutput (output : String)
  /-- The format "Команда выполнена успешно. Вывод:\n%s". -/
  | commandDone (output : String)
  /-- The format "Выполнение пост-действия: %s". -/
  | postAction (cmd : String)
  /-- The format "Ошибка выполнения пост-действия: %v". -/
  | postActionError (e : Err)
  deriving DecidableEq

/-- What the code does that can be observed from outside, in order. -/
inductive Event where
  | log (line : LogLine)
  | spawn (argv : List String)
  deriving DecidableEq

/-- A Go result together with the events produced and the world left behind. -/
structure Out (σ α : Type) where
  val : α
  events : List Event
  world : σ

/-! ## Library functions -/

/-- Go's `unicode.IsSpace`. -/
def isSpace (c : Char) : Bool :=
  let n := c.toNat
  n == 0x09 || n == 0x0A || n == 0x0B || n == 0x0C || n == 0x0D || n == 0x20
    || n == 0x85 || n == 0xA0 || n == 0x1680 || (0x2000 ≤ n && n ≤ 0x200A)
    || n == 0x2028 || n == 0x2029 || n == 0x202F || n == 0x205F || n == 0x3000

/-- The scan of `strings.Fields`: `cur` is the token being read, reversed. -/
def fieldsAux : List Char → List Char → List String
  | [], cur => if cur = [] then [] else [String.mk cur.reverse]
  | c :: cs, cur =>
    if isSpace c then
      if cur = [] then fieldsAux cs [] else String.mk cur.reverse :: fieldsAux cs []
    else fieldsAux cs (c :: cur)

/-- Go's `strings.Fields`: the maximal runs of non-space characters, in order. A Lean string
is a sequence of Unicode characters, as is every string decoded from the JSON manifest. -/
def fields (s : String) : List String := fieldsAux s.toList []

/-! ## The processing code -/

/-- Go `commandExists`: `exec.LookPath(cmd)` returns no error. -/
def commandExists {σ : Type} (w : World σ) (s : σ) (cmd : String) : Bool :=
  w.lookPath s cmd

/-- Go `detectPackageManager`: the `switch` over the four candidates, `""` by default. -/
def detectPackageManager {σ : Type} (w : World σ) (s : σ) : String :=
  if commandExists w s "apt" then "apt"
  else if commandExists w s "apt-get" then "apt-get"
  else if commandExists w s "dnf" then "dnf"
  else if commandExists w s "yum" then "yum"
  else ""

/-- Go `checkConfigExists`: the first path whose stat error is not "not exists" returns true. -/
def checkConfigExists {σ : Type} (w : World σ) (s : σ) (homeDir : String) :
    List String → Bool
  | [] => false
  | path :: rest =>
    if w.stat s (w.join homeDir path) ≠ StatResult.notExist then true
    else checkConfigExists w s homeDir rest

/-- Go `isProgramInstalled`. -/
def isProgramInstalled {σ : Type} (w : World σ) (checkCommand : String) (s : σ) :
    Out σ Bool :=
  let cmdParts := fields checkCommand
  if cmdParts = [] then ⟨false, [], s⟩
  else if w.lookPath s (cmdParts.headD "") = false then ⟨false, [], s⟩
  else
    let r := w.spawn s cmdParts
    ⟨r.1.err == none, [Event.spawn cmdParts], r.2⟩

/-- Go `installProgram`. -/
def installProgram {σ : Type} (w : World σ) (program : Program) (s : σ) :
    Out σ (Option Err) :=
  let pm := detectPackageManager w s
  if pm = "" then ⟨some Err.noPackageManager, [], s⟩
  else
    match program.packages.lookup pm with
    | none => ⟨some (Err.packagesUndefined pm), [], s⟩
    | some pkgList =>
      let argv := [pm, "install", "-y"] ++ fields pkgList
      let r := w.spawn s argv
      match r.1.err with
      | some cause =>
        ⟨some (Err.installFailed cause),
          [Event.log (LogLine.installing pm pkgList), Event.spawn argv,
            Event.log (LogLine.installOutput r.1.output)], r.2⟩
      | none =>
        ⟨none,
          [Event.log (LogLine.installing pm pkgList), Event.spawn argv,
            Event.log (LogLine.installDone r.1.output)], r.2⟩

/-- Go `executeCommand`. -/
def executeCommand {σ : Type} (w : World σ) (cmd : String) (s : σ) :
    Out σ (Option Err) :=
  let parts := fields cmd
  if parts = [] then ⟨some Err.emptyCommand, [Event.log (LogLine.executing cmd)], s⟩
  else
    let r := w.spawn s parts
    match r.1.err with
    | some cause =>
      ⟨some (Err.execFailed cause),
        [Event.log (LogLine.executing cmd), Event.spawn parts,
          Event.log (LogLine.commandOutput r.1.output)], r.2⟩
    | none =>
      ⟨none,
        [Event.log (LogLine.executing cmd), Event.spawn parts,
          Event.log (LogLine.commandDone r.1.output)], r.2⟩

/-- Go `runPostAction`: every command is executed, an error is only logged. -/
def runPostAction {σ : Type} (w : World σ) : List String → σ → Out σ Unit
  | [], s => ⟨(), [], s⟩
  | cmd :: rest, s =>
    let r := executeCommand w cmd s
    let tail := runPostAction w rest r.world
    match r.val with
    | some e =>
      ⟨(), Event.log (LogLine.postAction cmd) :: r.events
          ++ Event.log (LogLine.postActionError e) :: tail.events, tail.world⟩
    | none =>
      ⟨(), Event.log (LogLine.postAction cmd) :: r.events ++ tail.events, tail.world⟩

/-- The assignment to `program.Action` at the head of `processProgram`: an empty action
becomes "execute" when the configuration exists and "install" otherwise. -/
def effectiveAction (action : String) (configExists : Bool) : String :=
  if action = "" then
    if configExists then "execute" else "install"
  else action

/-- Go `processProgram`. -/
def processProgram {σ : Type} (w : World σ) (userHome : String) (program : Program)
    (s : σ) : Out σ Unit :=
  let hello := Event.log (LogLine.checking program.name)
  let configExists := checkConfigExists w s userHome program.configPaths
  let action := effectiveAction program.action configExists
  if action = "install" then
    let chk := isProgramInstalled w program.checkCommand s
    if chk.val then
      ⟨(), hello :: chk.events ++ [Event.log (LogLine.alreadyInstalled program.name)],
        chk.world⟩
    else
      let ins := installProgram w program chk.world
      match ins.val with
      | some e =>
        ⟨(), hello :: chk.events ++ ins.events
            ++ [Event.log (LogLine.installError program.name e)], ins.world⟩
      | none =>
        let post := runPostAction w program.postAction ins.world
        ⟨(), hello :: chk.events ++ ins.events ++ post.events, post.world⟩
  else if action = "execute" then
    if configExists = false then
      ⟨(), [hello, Event.log (LogLine.configNotFound program.name)], s⟩
    else if program.command = "" then
      ⟨(), [hello, Event.log (LogLine.noCommand program.name)], s⟩
    else
      let exe := executeCommand w program.command s
      match exe.val with
      | some e =>
        ⟨(), hello :: exe.events ++ [Event.log (LogLine.commandError program.name e)],
          exe.world⟩
      | none =>
        let post := runPostAction w program.postAction exe.world
        ⟨(), hello :: exe.events ++ post.events, post.world⟩
  else
    ⟨(), [hello, Event.log (LogLine.unknownAction program.name action)], s⟩

/-- The loop `for _, program := range cfg.Programs { processProgram(userHome, program) }`
of `processUserConfig`. -/
def processUserConfigLoop {σ : Type} (w : World σ) (userHome : String) :
    List Program → σ → Out σ Unit
  | [], s => ⟨(), [], s⟩
  | program :: rest, s =>
    let r := processProgram w userHome program s
    let tail := processUserConfigLoop w userHome rest r.world
    ⟨(), r.events ++ tail.events, tail.world⟩

/-! ## Observations on event lists -/

/-- The processes spawned, in order. -/
def spawned : List Event → List (List String)
  | [] => []
  | Event.spawn argv :: es => argv :: spawned es
  | Event.log _ :: es => spawned es

/-- The command lines handed to `executeCommand`, in order (its first log line). -/
def attempted : List Event → List String
  | [] => []
  | Event.log (LogLine.executing cmd) :: es => cmd :: attempted es
  | _ :: es => attempted es

/-- The post-action entries started by `runPostAction`, in order. -/
def postActionsStarted : List Event → List String
  | [] => []
  | Event.log (LogLine.postAction cmd) :: es => cmd :: postActionsStarted es
  | _ :: es => postActionsStarted es

/-- The names of the programs handed to `processProgram`, in order (its first log line). -/
def programsStarted : List Event → List String
  | [] => []
  | Event.log (LogLine.checking name) :: es => name :: programsStarted es
  | _ :: es => programsStarted es

/-! ## Concrete worlds -/

/-- A world without state: a configuration file `/home/u/.cfg`, `apt` and `true` on the search
path, and every process succeeding except `apt install -y foo`. -/
def sampleWorld : World Unit where
  join := fun h p => h ++ "/" ++ p
  stat := fun _ p => if p = "/home/u/.cfg" then StatResult.ok else StatResult.notExist
  lookPath := fun _ c => c = "apt" || c = "true"
  spawn := fun _ argv =>
    if argv = ["apt", "install", "-y", "foo"] then (⟨some "exit status 100", "E: no foo"⟩, ())
    else (⟨none, ""⟩, ())

/-- A world in which every stat fails with an error other than "not exists". -/
def deniedWorld : World Unit where
  join := fun h p => h ++ "/" ++ p
  stat := fun _ _ => StatResult.otherErr
  lookPath := fun _ _ => false
  spawn := fun _ _ => (⟨some "exit status 1", ""⟩, ())

/-- A descriptor with an explicit install action and a package list for `apt` only. -/
def sampleInstall : Program :=
  ⟨"a", [], "", "install", [("apt", "foo")], "", ["x"]⟩

/-- A descriptor without an action, with a configuration path, a command and post-actions. -/
def sampleExecute : Program :=
  ⟨"b", [".cfg"], "", "", [], "run b", ["echo 1", "  ", "echo 2"]⟩

/-! ## Lemmas on observations -/

theorem spawned_append (xs ys : List Event) :
    spawned (xs ++ ys) = spawned xs ++ spawned ys := by
  induction xs with
  | nil => rfl
  | cons e es ih => cases e <;> simp [spawned, ih]

theorem attempted_append (xs ys : List Event) :
    attempted (xs ++ ys) = attempted xs ++ attempted ys := by
  induction xs with
  | nil => rfl
  | cons e es ih =>
    cases e with
    | spawn argv => simp [attempted, ih]
    | log line => cases line <;> simp [attempted, ih]

theorem postActionsStarted_append (xs ys : List Event) :
    postActionsStarted (xs ++ ys) = postActionsStarted xs ++ postActionsStarted ys := by
  induction xs with
  | nil => rfl
  | cons e es ih =>
    cases e with
    | spawn argv => simp [postActionsStarted, ih]
    | log line => cases line <;> simp [postActionsStarted, ih]

theorem programsStarted_append (xs ys : List Event) :
    programsStarted (xs ++ ys) = programsStarted xs ++ programsStarted ys := by
  induction xs with
  | nil => rfl
  | cons e es ih =>
    cases e with
    | spawn argv => simp [programsStarted, ih]
    | log line => cases line <;> simp [programsStarted, ih]

/-! ## Action resolution -/

theorem effectiveAction_idem (action : String) (b : Bool) :
    effectiveAction (effectiveAction action b) b = effectiveAction action b := by
  unfold effectiveAction
  by_cases h : action = ""
  · cases b <;> simp [h]
  · simp [h]

theorem installProgram_action {σ : Type} (w : World σ) (program : Program) (a : String)
    (s : σ) :
    installProgram w { program with action := a } s = installProgram w program s := rfl

/-- C1: the action dispatched on by `processProgram` is `effectiveAction` of the action
field and the result of `checkConfigExists`: an explicit "install" or "execute" is kept
whatever the configuration probe says, an empty action becomes "execute" when the probe is
true and "install" when it is false, and processing a descriptor is the same as processing
it with its action field replaced by that effective action. -/
theorem processProgram_effectiveAction {σ : Type} (w : World σ) (userHome : String)
    (program : Program) (s : σ) (configExists : Bool) :
    effectiveAction "install" configExists = "install"
    ∧ effectiveAction "execute" configExists = "execute"
    ∧ effectiveAction "" true = "execute"
    ∧ effectiveAction "" false = "install"
    ∧ processProgram w userHome program s
      = processProgram w userHome
          { program with
            action := effectiveAction program.action
              (checkConfigExists w s userHome program.configPaths) } s := by
  refine ⟨by cases configExists <;> decide, by cases configExists <;> decide,
    by decide, by decide, ?_⟩
  simp only [processProgram, effectiveAction_idem, installProgram_action]

/-! ## Package manager detection -/

/-- C9: `detectPackageManager` returns the first of apt, apt-get, dnf, yum that resolves
on the search path, and the empty string exactly when none of the four resolves; it returns
apt whenever apt resolves and never yum when apt, apt-get or dnf resolves. -/
theorem detectPackageManager_first {σ : Type} (w : World σ) (s : σ) :
    detectPackageManager w s
      = ((["apt", "apt-get", "dnf", "yum"].find? (fun c => w.lookPath s c)).getD "")
    ∧ (detectPackageManager w s = ""
        ↔ ∀ c ∈ ["apt", "apt-get", "dnf", "yum"], w.lookPath s c = false)
    ∧ (w.lookPath s "apt" = true → detectPackageManager w s = "apt")
    ∧ (w.lookPath s "apt" = true ∨ w.lookPath s "apt-get" = true ∨ w.lookPath s "dnf" = true
        → detectPackageManager w s ≠ "yum") := by
  unfold detectPackageManager commandExists
  cases h1 : w.lookPath s "apt" <;> cases h2 : w.lookPath s "apt-get"
    <;> cases h3 : w.lookPath s "dnf" <;> cases h4 : w.lookPath s "yum"
    <;> simp [List.find?, h1, h2, h3, h4]

/-- The witness of C9 . -/
theorem detectPackageManager_first_witness :
    detectPackageManager sampleWorld () = "apt" :=
  (detectPackageManager_first sampleWorld ()).2.2.1 (by decide)

/-! ## Configuration probe -/

theorem checkConfigExists_iff {σ : Type} (w : World σ) (s : σ) (homeDir : String)
    (paths : List String) :
    checkConfigExists w s homeDir paths = true
      ↔ ∃ p ∈ paths, w.stat s (w.join homeDir p) ≠ StatResult.notExist := by
  induction paths with
  | nil => simp [checkConfigExists]
  | cons p ps ih =>
    by_cases h : w.stat s (w.join homeDir p) = StatResult.notExist
    · simp [checkConfigExists, h, ih]
    · simp [checkConfigExists, h]

/-- C5, as stated, fails: with a stat that answers "permission denied" for the only listed
path, no listed path exists and yet `checkConfigExists` returns true. -/
theorem checkConfigExists_denied_counterexample :
    checkConfigExists deniedWorld () "/home/u" [".cfg"] = true
    ∧ (∀ p ∈ [".cfg"],
        deniedWorld.stat () (deniedWorld.join "/home/u" p) = StatResult.otherErr)
    ∧ ¬ ∃ p ∈ [".cfg"], deniedWorld.stat () (deniedWorld.join "/home/u" p) = StatResult.ok := by
  refine ⟨by decide, ?_, ?_⟩
  · intro p _
    rfl
  · rintro ⟨p, _, hp⟩
    exact absurd hp (by simp [deniedWorld])

/-- C5, amended: `checkConfigExists` returns true if and only if for some listed path the
stat of `homeDir/p` does not report "not exists"; a stat error other than "not exists" counts
as the path existing, so when every path of a non-empty list yields such an error the result
is true. -/
theorem checkConfigExists_not_notExist {σ : Type} (w : World σ) (s : σ) (homeDir : String)
    (paths : List String) :
    (checkConfigExists w s homeDir paths = true
      ↔ ∃ p ∈ paths, w.stat s (w.join homeDir p) = StatResult.ok
          ∨ w.stat s (w.join homeDir p) = StatResult.otherErr)
    ∧ (paths ≠ [] → (∀ p ∈ paths, w.stat s (w.join homeDir p) = StatResult.otherErr)
        → checkConfigExists w s homeDir paths = true) := by
  have key : ∀ r : StatResult, r ≠ StatResult.notExist
      ↔ (r = StatResult.ok ∨ r = StatResult.otherErr) := by
    intro r
    cases r <;> simp
  constructor
  · rw [checkConfigExists_iff]
    simp only [key]
  · intro hne hall
    rw [checkConfigExists_iff]
    cases paths with
    | nil => exact absurd rfl hne
    | cons p ps =>
      exact ⟨p, List.mem_cons_self p ps, by rw [hall p (List.mem_cons_self p ps)]; decide⟩

/-- The witness of C5 amended: one path, permission denied, result true. -/
theorem checkConfigExists_not_notExist_witness :
    checkConfigExists deniedWorld () "/home/u" [".cfg"] = true :=
  (checkConfigExists_not_notExist deniedWorld () "/home/u" [".cfg"]).2 (by decide)
    (by intro p _; rfl)

/-- C6: when the stat of every candidate path either succeeds or reports "not exists",
`checkConfigExists` returns true exactly when some listed path exists under the home
directory, whatever its position: true for `[x, y]` with only `y` existing, false with
neither existing, and false for the empty list. -/
theorem checkConfigExists_exists {σ : Type} (w : World σ) (s : σ) (homeDir : String)
    (paths : List String)
    (hstat : ∀ p ∈ paths, w.stat s (w.join homeDir p) = StatResult.ok
      ∨ w.stat s (w.join homeDir p) = StatResult.notExist) :
    (checkConfigExists w s homeDir paths = true
      ↔ ∃ p ∈ paths, w.stat s (w.join homeDir p) = StatResult.ok)
    ∧ (∀ x y, paths = [x, y] → w.stat s (w.join homeDir x) = StatResult.notExist
        → w.stat s (w.join homeDir y) = StatResult.ok
        → checkConfigExists w s homeDir paths = true)
    ∧ (∀ x y, paths = [x, y] → w.stat s (w.join homeDir x) = StatResult.notExist
        → w.stat s (w.join homeDir y) = StatResult.notExist
        → checkConfigExists w s homeDir paths = false)
    ∧ (∀ home, checkConfigExists w s home [] = false) := by
  refine ⟨?_, ?_, ?_, ?_⟩
  · rw [checkConfigExists_iff]
    constructor
    · rintro ⟨p, hp, hne⟩
      rcases hstat p hp with h | h
      · exact ⟨p, hp, h⟩
      · exact absurd h hne
    · rintro ⟨p, hp, hok⟩
      exact ⟨p, hp, by rw [hok]; decide⟩
  · rintro x y rfl hx hy
    simp [checkConfigExists, hx, hy]
  · rintro x y rfl hx hy
    simp [checkConfigExists, hx, hy]
  · intro home
    rfl

/-- The witness of C6: `["x", ".cfg"]` under `/home/u`, where only `.cfg` exists. -/
theorem checkConfigExists_exists_witness :
    checkConfigExists sampleWorld () "/home/u" ["x", ".cfg"] = true :=
  (checkConfigExists_exists sampleWorld () "/home/u" ["x", ".cfg"] (by decide)).2.1
    "x" ".cfg" rfl (by decide) (by decide)

/-! ## Install probe -/

/-- C7: `isProgramInstalled` returns false and spawns nothing when the check command has no
fields or when its first field does not resolve on the search path; otherwise it spawns the
command once, with its fields as arguments, and returns true exactly when that run returns
no error. -/
theorem isProgramInstalled_spec {σ : Type} (w : World σ) (checkCommand : String) (s : σ) :
    (fields checkCommand = [] →
      (isProgramInstalled w checkCommand s).val = false
      ∧ (isProgramInstalled w checkCommand s).events = []
      ∧ (isProgramInstalled w checkCommand s).world = s)
    ∧ (∀ x xs, fields checkCommand = x :: xs → w.lookPath s x = false →
      (isProgramInstalled w checkCommand s).val = false
      ∧ (isProgramInstalled w checkCommand s).events = []
      ∧ (isProgramInstalled w checkCommand s).world = s)
    ∧ (∀ x xs, fields checkCommand = x :: xs → w.lookPath s x = true →
      (isProgramInstalled w checkCommand s).events = [Event.spawn (x :: xs)]
      ∧ spawned (isProgramInstalled w checkCommand s).events = [x :: xs]
      ∧ ((isProgramInstalled w checkCommand s).val = true
          ↔ (w.spawn s (x :: xs)).1.err = none)
      ∧ (isProgramInstalled w checkCommand s).world = (w.spawn s (x :: xs)).2) := by
  refine ⟨?_, ?_, ?_⟩
  · intro h
    simp [isProgramInstalled, h]
  · intro x xs h hl
    simp [isProgramInstalled, h, hl]
  · intro x xs h hl
    simp [isProgramInstalled, h, hl, spawned]

/-- The witness of C7: `true` resolves in the sample world and its run succeeds. -/
theorem isProgramInstalled_spec_witness :
    (isProgramInstalled sampleWorld "true" ()).val = true :=
  ((isProgramInstalled_spec sampleWorld "true" ()).2.2 "true" [] (by decide)
    (by decide)).2.2.1.mpr (by decide)

/-! ## Events of the single steps -/

theorem executeCommand_observed {σ : Type} (w : World σ) (cmd : String) (s : σ) :
    attempted (executeCommand w cmd s).events = [cmd]
    ∧ postActionsStarted (executeCommand w cmd s).events = []
    ∧ programsStarted (executeCommand w cmd s).events = []
    ∧ spawned (executeCommand w cmd s).events = (if fields cmd = [] then [] else [fields cmd]) := by
  unfold executeCommand
  by_cases h : fields cmd = []
  · simp [h, attempted, postActionsStarted, programsStarted, spawned]
  · simp only [h, if_false]
    cases (w.spawn s (fields cmd)).1.err
      <;> simp [attempted, postActionsStarted, programsStarted, spawned]

theorem isProgramInstalled_observed {σ : Type} (w : World σ) (checkCommand : String)
    (s : σ) :
    attempted (isProgramInstalled w checkCommand s).events = []
    ∧ postActionsStarted (isProgramInstalled w checkCommand s).events = []
    ∧ programsStarted (isProgramInstalled w checkCommand s).events = [] := by
  unfold isProgramInstalled
  by_cases h : fields checkCommand = []
  · simp [h, attempted, postActionsStarted, programsStarted]
  · by_cases hl : w.lookPath s ((fields checkCommand).headD "") = false
    · simp only [if_neg h, if_pos hl]
      simp [attempted, postActionsStarted, programsStarted]
    · simp only [if_neg h, if_neg hl]
      simp [attempted, postActionsStarted, programsStarted]

theorem installProgram_observed {σ : Type} (w : World σ) (program : Program) (s : σ) :
    attempted (installProgram w program s).events = []
    ∧ postActionsStarted (installProgram w program s).events = []
    ∧ programsStarted (installProgram w program s).events = [] := by
  unfold installProgram
  by_cases h : detectPackageManager w s = ""
  · simp [h, attempted, postActionsStarted, programsStarted]
  · simp only [h, if_false]
    cases program.packages.lookup (detectPackageManager w s) with
    | none => simp [attempted, postActionsStarted, programsStarted]
    | some pkgList =>
      simp only
      cases (w.spawn s ([detectPackageManager w s, "install", "-y"] ++ fields pkgList)).1.err
        <;> simp [attempted, postActionsStarted, programsStarted]

theorem runPostAction_observed {σ : Type} (w : World σ) (commands : List String) (s : σ) :
    attempted (runPostAction w commands s).events = commands
    ∧ postActionsStarted (runPostAction w commands s).events = commands
    ∧ programsStarted (runPostAction w commands s).events = []
    ∧ spawned (runPostAction w commands s).events
        = (commands.map fields).filter (fun parts => parts ≠ []) := by
  induction commands generalizing s with
  | nil => simp [runPostAction, attempted, postActionsStarted, programsStarted, spawned]
  | cons cmd rest ih =>
    obtain ⟨h1, h2, h3, h4⟩ := executeCommand_observed w cmd s
    obtain ⟨i1, i2, i3, i4⟩ := ih (executeCommand w cmd s).world
    unfold runPostAction
    by_cases hf : fields cmd = []
    · cases hv : (executeCommand w cmd s).val
        <;> simp [attempted, postActionsStarted, programsStarted, spawned, attempted_append,
          postActionsStarted_append, programsStarted_append, spawned_append,
          h1, h2, h3, h4, i1, i2, i3, i4, hf, hv]
    · cases hv : (executeCommand w cmd s).val
        <;> simp [attempted, postActionsStarted, programsStarted, spawned, attempted_append,
          postActionsStarted_append, programsStarted_append, spawned_append,
          h1, h2, h3, h4, i1, i2, i3, i4, hf, hv]

theorem runPostAction_append {σ : Type} (w : World σ) (xs ys : List String) (s : σ) :
    (runPostAction w (xs ++ ys) s).events
        = (runPostAction w xs s).events
          ++ (runPostAction w ys (runPostAction w xs s).world).events
    ∧ (runPostAction w (xs ++ ys) s).world
        = (runPostAction w ys (runPostAction w xs s).world).world := by
  induction xs generalizing s with
  | nil => simp [runPostAction]
  | cons cmd rest ih =>
    obtain ⟨i1, i2⟩ := ih (executeCommand w cmd s).world
    simp only [List.cons_append, runPostAction]
    cases (executeCommand w cmd s).val <;> simp [i1, i2]

/-! ## Post-actions -/

/-- C3: `runPostAction` hands every entry of the list to `executeCommand` exactly once and
in list order, whatever the outcome of each command: the entries started and the command
lines attempted are the list itself, the processes spawned are the non-empty field lists of
the entries in order, and the run of a list `xs ++ ys` is the run of `xs` followed by the
run of `ys`, so no entry of `xs`, failing or without fields, keeps `ys` from being run. -/
theorem runPostAction_attempts_all {σ : Type} (w : World σ) (commands : List String)
    (s : σ) :
    postActionsStarted (runPostAction w commands s).events = commands
    ∧ attempted (runPostAction w commands s).events = commands
    ∧ spawned (runPostAction w commands s).events
        = (commands.map fields).filter (fun parts => parts ≠ [])
    ∧ ∀ xs ys, commands = xs ++ ys →
        (runPostAction w commands s).events
          = (runPostAction w xs s).events
            ++ (runPostAction w ys (runPostAction w xs s).world).events := by
  obtain ⟨h1, h2, _, h4⟩ := runPostAction_observed w commands s
  refine ⟨h2, h1, h4, ?_⟩
  rintro xs ys rfl
  exact (runPostAction_append w xs ys s).1

/-! ## Installation -/

/-- C8: with `m` the detected package manager, `installProgram` returns the error "packages
undefined for `m`" and spawns nothing when the packages mapping has no key `m`, whatever
other keys it has; when the key is present it spawns exactly one process, `m install -y`
followed by the fields of `packages[m]` in order. -/
theorem installProgram_spec {σ : Type} (w : World σ) (program : Program) (s : σ)
    (m : String) (hm : detectPackageManager w s = m) (hne : m ≠ "") :
    (program.packages.lookup m = none →
      (installProgram w program s).val = some (Err.packagesUndefined m)
      ∧ (installProgram w program s).events = []
      ∧ spawned (installProgram w program s).events = []
      ∧ (installProgram w program s).world = s)
    ∧ (∀ pkgList, program.packages.lookup m = some pkgList →
      spawned (installProgram w program s).events
        = [[m, "install", "-y"] ++ fields pkgList]
      ∧ ((installProgram w program s).val = none
          ↔ (w.spawn s ([m, "install", "-y"] ++ fields pkgList)).1.err = none)) := by
  subst hm
  constructor
  · intro hl
    simp [installProgram, hne, hl, spawned]
  · intro pkgList hl
    unfold installProgram
    simp only [if_neg hne, hl]
    cases (w.spawn s ([detectPackageManager w s, "install", "-y"] ++ fields pkgList)).1.err
      <;> simp [spawned]

/-- The witness of C8: `apt` is detected in the sample world and the descriptor lists
packages for `yum` only. -/
theorem installProgram_spec_witness :
    (installProgram sampleWorld ⟨"a", [], "", "install", [("yum", "foo")], "", []⟩ ()).val
      = some (Err.packagesUndefined "apt") :=
  ((installProgram_spec sampleWorld ⟨"a", [], "", "install", [("yum", "foo")], "", []⟩ ()
    "apt" (by decide) (by decide)).1 (by decide)).1

/-! ## Processing one program -/

theorem processProgram_install_ok {σ : Type} (w : World σ) (userHome : String)
    (program : Program) (s : σ)
    (hact : effectiveAction program.action
      (checkConfigExists w s userHome program.configPaths) = "install")
    (hchk : (isProgramInstalled w program.checkCommand s).val = false)
    (hins : (installProgram w program (isProgramInstalled w program.checkCommand s).world).val
      = none) :
    (processProgram w userHome program s).events
      = Event.log (LogLine.checking program.name)
        :: (isProgramInstalled w program.checkCommand s).events
        ++ (installProgram w program (isProgramInstalled w program.checkCommand s).world).events
        ++ (runPostAction w program.postAction
            (installProgram w program
              (isProgramInstalled w program.checkCommand s).world).world).events := by
  unfold processProgram
  simp only [hact, hchk, hins, if_true]
  simp

theorem processProgram_execute_ok {σ : Type} (w : World σ) (userHome : String)
    (program : Program) (s : σ)
    (hact : effectiveAction program.action
      (checkConfigExists w s userHome program.configPaths) = "execute")
    (hcfg : checkConfigExists w s userHome program.configPaths = true)
    (hcmd : program.command ≠ "")
    (hexe : (executeCommand w program.command s).val = none) :
    (processProgram w userHome program s).events
      = Event.log (LogLine.checking program.name)
        :: (executeCommand w program.command s).events
        ++ (runPostAction w program.postAction
            (executeCommand w program.command s).world).events := by
  have hne : ("execute" : String) ≠ "install" := by decide
  unfold processProgram
  simp only [hact, if_neg hne, if_true]
  simp only [hcfg, hexe, if_neg hcmd]
  simp

theorem processProgram_stopped {σ : Type} (w : World σ) (userHome : String)
    (program : Program) (s : σ)
    (hno : ¬ ((effectiveAction program.action
          (checkConfigExists w s userHome program.configPaths) = "install"
        ∧ (isProgramInstalled w program.checkCommand s).val = false
        ∧ (installProgram w program
            (isProgramInstalled w program.checkCommand s).world).val = none)
      ∨ (effectiveAction program.action
          (checkConfigExists w s userHome program.configPaths) = "execute"
        ∧ checkConfigExists w s userHome program.configPaths = true
        ∧ program.command ≠ ""
        ∧ (executeCommand w program.command s).val = none))) :
    postActionsStarted (processProgram w userHome program s).events = []
    ∧ (attempted (processProgram w userHome program s).events = []
      ∨ attempted (processProgram w userHome program s).events = [program.command]) := by
  obtain ⟨c1, c2, _⟩ := isProgramInstalled_observed w program.checkCommand s
  obtain ⟨n1, n2, _⟩ := installProgram_observed w program
    (isProgramInstalled w program.checkCommand s).world
  obtain ⟨e1, e2, _⟩ := executeCommand_observed w program.command s
  unfold processProgram
  by_cases hact : effectiveAction program.action
      (checkConfigExists w s userHome program.configPaths) = "install"
  · simp only [hact, if_true]
    cases hchk : (isProgramInstalled w program.checkCommand s).val
    · cases hins : (installProgram w program
          (isProgramInstalled w program.checkCommand s).world).val
      · exact absurd (Or.inl ⟨hact, hchk, hins⟩) hno
      · simp [attempted, postActionsStarted, attempted_append, postActionsStarted_append,
          c1, c2, n1, n2]
    · simp [attempted, postActionsStarted, attempted_append, postActionsStarted_append,
        c1, c2]
  · simp only [if_neg hact]
    by_cases hexec : effectiveAction program.action
        (checkConfigExists w s userHome program.configPaths) = "execute"
    · simp only [hexec, if_true]
      cases hcfg : checkConfigExists w s userHome program.configPaths
      · simp [attempted, postActionsStarted]
      · by_cases hcmd : program.command = ""
        · simp [hcmd, attempted, postActionsStarted]
        · cases hexe : (executeCommand w program.command s).val
          · exact absurd (Or.inr ⟨hexec, hcfg, hcmd, hexe⟩) hno
          · simp [hcmd, attempted, postActionsStarted, attempted_append,
              postActionsStarted_append, e1, e2]
    · simp [hexec, attempted, postActionsStarted]

theorem processProgram_programsStarted {σ : Type} (w : World σ) (userHome : String)
    (program : Program) (s : σ) :
    programsStarted (processProgram w userHome program s).events = [program.name] := by
  obtain ⟨_, _, c3⟩ := isProgramInstalled_observed w program.checkCommand s
  obtain ⟨_, _, n3⟩ := installProgram_observed w program
    (isProgramInstalled w program.checkCommand s).world
  obtain ⟨_, _, e3, _⟩ := executeCommand_observed w program.command s
  obtain ⟨_, _, r3, _⟩ := runPostAction_observed w program.postAction
    (installProgram w program (isProgramInstalled w program.checkCommand s).world).world
  obtain ⟨_, _, q3, _⟩ := runPostAction_observed w program.postAction
    (executeCommand w program.command s).world
  unfold processProgram
  by_cases hact : effectiveAction program.action
      (checkConfigExists w s userHome program.configPaths) = "install"
  · simp only [hact, if_true]
    cases hchk : (isProgramInstalled w program.checkCommand s).val
    · cases hins : (installProgram w program
          (isProgramInstalled w program.checkCommand s).world).val
        <;> simp [programsStarted, programsStarted_append, c3, n3, r3]
    · simp [programsStarted, programsStarted_append, c3]
  · simp only [if_neg hact]
    by_cases hexec : effectiveAction program.action
        (checkConfigExists w s userHome program.configPaths) = "execute"
    · simp only [hexec, if_true]
      cases hcfg : checkConfigExists w s userHome program.configPaths
      · simp [programsStarted]
      · by_cases hcmd : program.command = ""
        · simp [hcmd, programsStarted]
        · cases hexe : (executeCommand w program.command s).val
            <;> simp [hcmd, programsStarted, programsStarted_append, e3, q3]
    · simp [hexec, programsStarted]

/-- C2: `processProgram` runs the post-action list exactly when the primary action was
performed and succeeded. If the effective action is install, `isProgramInstalled` returned
false and `installProgram` returned no error, or if the effective action is execute, a
configuration path exists, the command is non-empty and `executeCommand` returned no error,
the events are those of the primary action followed by those of `runPostAction` on the whole
list, and every entry is started in order. In every other case no post-action entry is
started and no command line other than the primary command is handed to `executeCommand`. -/
theorem processProgram_postActions {σ : Type} (w : World σ) (userHome : String)
    (program : Program) (s : σ) :
    ((effectiveAction program.action
          (checkConfigExists w s userHome program.configPaths) = "install"
        ∧ (isProgramInstalled w program.checkCommand s).val = false
        ∧ (installProgram w program
            (isProgramInstalled w program.checkCommand s).world).val = none) →
      (processProgram w userHome program s).events
        = Event.log (LogLine.checking program.name)
          :: (isProgramInstalled w program.checkCommand s).events
          ++ (installProgram w program
              (isProgramInstalled w program.checkCommand s).world).events
          ++ (runPostAction w program.postAction
              (installProgram w program
                (isProgramInstalled w program.checkCommand s).world).world).events
      ∧ postActionsStarted (processProgram w userHome program s).events
        = program.postAction)
    ∧ ((effectiveAction program.action
          (checkConfigExists w s userHome program.configPaths) = "execute"
        ∧ checkConfigExists w s userHome program.configPaths = true
        ∧ program.command ≠ ""
        ∧ (executeCommand w program.command s).val = none) →
      (processProgram w userHome program s).events
        = Event.log (LogLine.checking program.name)
          :: (executeCommand w program.command s).events
          ++ (runPostAction w program.postAction
              (executeCommand w program.command s).world).events
      ∧ postActionsStarted (processProgram w userHome program s).events
        = program.postAction)
    ∧ (¬ ((effectiveAction program.action
            (checkConfigExists w s userHome program.configPaths) = "install"
          ∧ (isProgramInstalled w program.checkCommand s).val = false
          ∧ (installProgram w program
              (isProgramInstalled w program.checkCommand s).world).val = none)
        ∨ (effectiveAction program.action
            (checkConfigExists w s userHome program.configPaths) = "execute"
          ∧ checkConfigExists w s userHome program.configPaths = true
          ∧ program.command ≠ ""
          ∧ (executeCommand w program.command s).val = none)) →
      postActionsStarted (processProgram w userHome program s).events = []
      ∧ (attempted (processProgram w userHome program s).events = []
        ∨ attempted (processProgram w userHome program s).events = [program.command])) := by
  refine ⟨?_, ?_, processProgram_stopped w userHome program s⟩
  · rintro ⟨hact, hchk, hins⟩
    have hev := processProgram_install_ok w userHome program s hact hchk hins
    refine ⟨hev, ?_⟩
    rw [hev]
    simp [postActionsStarted, postActionsStarted_append,
      (isProgramInstalled_observed w program.checkCommand s).2.1,
      (installProgram_observed w program _).2.1,
      (runPostAction_observed w program.postAction _).2.1]
  · rintro ⟨hact, hcfg, hcmd, hexe⟩
    have hev := processProgram_execute_ok w userHome program s hact hcfg hcmd hexe
    refine ⟨hev, ?_⟩
    rw [hev]
    simp [postActionsStarted, postActionsStarted_append,
      (executeCommand_observed w program.command s).2.1,
      (runPostAction_observed w program.postAction _).2.1]

/-- The witness of C2: the sample descriptor without an action, whose configuration exists
and whose command succeeds, has its three post-actions started. -/
theorem processProgram_postActions_witness :
    postActionsStarted (processProgram sampleWorld "/home/u" sampleExecute ()).events
      = ["echo 1", "  ", "echo 2"] :=
  ((processProgram_postActions sampleWorld "/home/u" sampleExecute ()).2.1
    ⟨by decide, by decide, by decide, by decide⟩).2

/-- C10: for a descriptor whose action is a non-empty string other than "install" and
"execute", `processProgram` only logs the program and the unknown action: the world is
unchanged, no process is spawned, no command is handed to `executeCommand` and no post-action
is started, whatever the other fields are. -/
theorem processProgram_unrecognized {σ : Type} (w : World σ) (userHome : String)
    (program : Program) (s : σ)
    (hempty : program.action ≠ "") (hinstall : program.action ≠ "install")
    (hexecute : program.action ≠ "execute") :
    (processProgram w userHome program s).events
      = [Event.log (LogLine.checking program.name),
          Event.log (LogLine.unknownAction program.name program.action)]
    ∧ (processProgram w userHome program s).world = s
    ∧ spawned (processProgram w userHome program s).events = []
    ∧ attempted (processProgram w userHome program s).events = []
    ∧ postActionsStarted (processProgram w userHome program s).events = [] := by
  have hact : effectiveAction program.action
      (checkConfigExists w s userHome program.configPaths) = program.action := by
    simp [effectiveAction, hempty]
  have hev : processProgram w userHome program s
      = ⟨(), [Event.log (LogLine.checking program.name),
          Event.log (LogLine.unknownAction program.name program.action)], s⟩ := by
    unfold processProgram
    simp only [hact, if_neg hinstall, if_neg hexecute]
  rw [hev]
  simp [spawned, attempted, postActionsStarted]

/-- The witness of C10: the action "Install", with a capital letter, on a descriptor that has
packages, a command, an existing configuration and a post-action. -/
theorem processProgram_unrecognized_witness :
    (processProgram sampleWorld "/home/u"
        ⟨"c", [".cfg"], "true", "Install", [("apt", "bar")], "run c", ["echo 3"]⟩ ()).events
      = [Event.log (LogLine.checking "c"),
          Event.log (LogLine.unknownAction "c" "Install")] :=
  (processProgram_unrecognized sampleWorld "/home/u"
    ⟨"c", [".cfg"], "true", "Install", [("apt", "bar")], "run c", ["echo 3"]⟩ ()
    (by decide) (by decide) (by decide)).1

/-! ## The loop over the manifest -/

theorem processUserConfigLoop_append {σ : Type} (w : World σ) (userHome : String)
    (xs ys : List Program) (s : σ) :
    (processUserConfigLoop w userHome (xs ++ ys) s).events
        = (processUserConfigLoop w userHome xs s).events
          ++ (processUserConfigLoop w userHome ys
              (processUserConfigLoop w userHome xs s).world).events
    ∧ (processUserConfigLoop w userHome (xs ++ ys) s).world
        = (processUserConfigLoop w userHome ys (processUserConfigLoop w userHome xs s).world).world := by
  induction xs generalizing s with
  | nil => simp [processUserConfigLoop]
  | cons p rest ih =>
    obtain ⟨i1, i2⟩ := ih (processProgram w userHome p s).world
    simp [processUserConfigLoop, i1, i2]

theorem processUserConfigLoop_programsStarted {σ : Type} (w : World σ) (userHome : String)
    (programs : List Program) (s : σ) :
    programsStarted (processUserConfigLoop w userHome programs s).events
      = programs.map Program.name := by
  induction programs generalizing s with
  | nil => simp [processUserConfigLoop, programsStarted]
  | cons p rest ih =>
    simp [processUserConfigLoop, programsStarted_append, processProgram_programsStarted, ih]

/-- C4: the loop of `processUserConfig` hands every descriptor to `processProgram` once and
in manifest order, and a descriptor is processed exactly as `processProgram` processes it in
the world left by the descriptors before it, whatever their outcome. For a list of two
descriptors where the first fails at install and the second succeeds at execute, the events
are those of the first descriptor followed by the command and the whole post-action run of
the second: its command is spawned and all its post-actions, and only they, are started. -/
theorem processUserConfigLoop_each_in_order {σ : Type} (w : World σ) (userHome : String)
    (programs : List Program) (s : σ) :
    programsStarted (processUserConfigLoop w userHome programs s).events
      = programs.map Program.name
    ∧ (∀ xs p ys, programs = xs ++ p :: ys →
        (processUserConfigLoop w userHome programs s).events
          = (processUserConfigLoop w userHome xs s).events
            ++ (processProgram w userHome p (processUserConfigLoop w userHome xs s).world).events
            ++ (processUserConfigLoop w userHome ys
                (processProgram w userHome p
                  (processUserConfigLoop w userHome xs s).world).world).events)
    ∧ (∀ p1 p2, programs = [p1, p2] →
        (effectiveAction p1.action (checkConfigExists w s userHome p1.configPaths) = "install"
          ∧ (isProgramInstalled w p1.checkCommand s).val = false
          ∧ (installProgram w p1 (isProgramInstalled w p1.checkCommand s).world).val ≠ none) →
        (effectiveAction p2.action
            (checkConfigExists w (processProgram w userHome p1 s).world userHome
              p2.configPaths) = "execute"
          ∧ checkConfigExists w (processProgram w userHome p1 s).world userHome
              p2.configPaths = true
          ∧ p2.command ≠ ""
          ∧ (executeCommand w p2.command (processProgram w userHome p1 s).world).val = none) →
        (processUserConfigLoop w userHome programs s).events
          = (processProgram w userHome p1 s).events
            ++ Event.log (LogLine.checking p2.name)
              :: (executeCommand w p2.command (processProgram w userHome p1 s).world).events
            ++ (runPostAction w p2.postAction
                (executeCommand w p2.command
                  (processProgram w userHome p1 s).world).world).events
        ∧ fields p2.command ∈ spawned (processUserConfigLoop w userHome programs s).events
        ∧ postActionsStarted (processUserConfigLoop w userHome programs s).events
          = p2.postAction) := by
  refine ⟨processUserConfigLoop_programsStarted w userHome programs s, ?_, ?_⟩
  · rintro xs p ys rfl
    rw [(processUserConfigLoop_append w userHome xs (p :: ys) s).1]
    simp [processUserConfigLoop]
  · rintro p1 p2 rfl ⟨hact1, hchk1, hins1⟩ ⟨hact2, hcfg2, hcmd2, hexe2⟩
    have hev2 := processProgram_execute_ok w userHome p2 (processProgram w userHome p1 s).world
      hact2 hcfg2 hcmd2 hexe2
    have hstop := (processProgram_stopped w userHome p1 s (by
      rintro (⟨_, _, h⟩ | ⟨h, _⟩)
      · exact hins1 h
      · rw [hact1] at h
        exact absurd h (by decide))).1
    have hev : (processUserConfigLoop w userHome [p1, p2] s).events
        = (processProgram w userHome p1 s).events
          ++ Event.log (LogLine.checking p2.name)
            :: (executeCommand w p2.command (processProgram w userHome p1 s).world).events
          ++ (runPostAction w p2.postAction
              (executeCommand w p2.command
                (processProgram w userHome p1 s).world).world).events := by
      simp [processUserConfigLoop, hev2]
    have hfields : fields p2.command ≠ [] := by
      intro hf
      have : (executeCommand w p2.command (processProgram w userHome p1 s).world).val
          = some Err.emptyCommand := by
        simp [executeCommand, hf]
      rw [this] at hexe2
      exact absurd hexe2 (by simp)
    have hsp := (executeCommand_observed w p2.command
      (processProgram w userHome p1 s).world).2.2.2
    rw [if_neg hfields] at hsp
    refine ⟨hev, ?_, ?_⟩
    · rw [hev]
      simp [spawned, spawned_append, hsp]
    · rw [hev]
      simp [postActionsStarted, postActionsStarted_append, hstop,
        (executeCommand_observed w p2.command _).2.1,
        (runPostAction_observed w p2.postAction _).2.1]

/-- The witness of C4: in the sample world the install of the first descriptor fails and the
second descriptor, processed after it, has its command spawned and its post-actions
started. -/
theorem processUserConfigLoop_each_in_order_witness :
    fields sampleExecute.command
        ∈ spawned
          (processUserConfigLoop sampleWorld "/home/u" [sampleInstall, sampleExecute] ()).events
    ∧ postActionsStarted
        (processUserConfigLoop sampleWorld "/home/u" [sampleInstall, sampleExecute] ()).events
      = sampleExecute.postAction :=
  ((processUserConfigLoop_each_in_order sampleWorld "/home/u" [sampleInstall, sampleExecute] ()).2.2
    sampleInstall sampleExecute rfl
    ⟨by decide, by decide, by decide⟩
    ⟨by decide, by decide, by decide, by decide⟩).2

end PrepareAfterUpdate
